import Mathlib

/-!
Verification development for the musician-site content pipeline.

Shallow embedding of the repository's JavaScript sources:
* `MarkdownParser` (document parser: front-matter split, metadata lines,
  prose conversion with fallback),
* `ContentManager` (album discovery, static-document cache, section
  rendering dispatch, lyrics loading),
* `AudioPlayer` (time formatting, track loading / reset state machine).

Strings are modelled as `List Char` where character-level parsing matters
(the parser), and as Lean `String` for identifiers and literals.  Network
fetches and the third-party prose-to-markup converter are modelled as
explicit oracle functions returning `Option` results (absent = the fetch
rejected / returned non-ok / the converter threw).
-/

namespace MusicSite

/-- Character strings, modelled as lists of characters. -/
abbrev Str := List Char

/-! ## Document parser (`MarkdownParser`) -/

/-- JavaScript `String.prototype.trim`, restricted to the ASCII whitespace
characters that `Char.isWhitespace` recognises. -/
def jsTrim (s : Str) : Str :=
  ((s.dropWhile Char.isWhitespace).reverse.dropWhile Char.isWhitespace).reverse

/-- JavaScript `String.prototype.split` with a single-character separator:
splits at every occurrence, keeping empty segments; the empty string yields
one empty segment. -/
def splitOnChar (c : Char) : Str → List Str
  | [] => [[]]
  | x :: xs =>
    if x = c then [] :: splitOnChar c xs
    else
      match splitOnChar c xs with
      | [] => [[x]]
      | s :: ss => (x :: s) :: ss

/-- JavaScript `Array.prototype.join` with a single-character separator. -/
def joinWith (c : Char) : List Str → Str
  | [] => []
  | [s] => s
  | s :: rest => s ++ c :: joinWith c rest

/-- The segment of a line strictly before its first occurrence of `c`. -/
def beforeSep (c : Char) (l : Str) : Str :=
  l.takeWhile (fun x => !decide (x = c))

/-- The segment of a line strictly after its first occurrence of `c`. -/
def afterSep (c : Char) (l : Str) : Str :=
  (l.dropWhile (fun x => !decide (x = c))).drop 1

/-- The metadata object built by `parseFrontMatter`: a JavaScript object is
modelled as a partial map from key to value; later assignments to the same
key overwrite earlier ones. -/
def MetaMap : Type := Str → Option Str

/-- The empty metadata object `{}`. -/
def emptyMeta : MetaMap := fun _ => none

/-- `metadata[key] = value` on a JavaScript object. -/
def updateMeta (m : MetaMap) (k v : Str) : MetaMap :=
  fun x => if x = k then some v else m x

/-- One iteration of the `lines.forEach` loop in
`MarkdownParser.parseFrontMatter`: skip blank lines; split the line on
colons; record a (trimmed) entry only when the segment before the first
colon is non-empty and the line contained at least one colon. -/
def processLine (m : MetaMap) (line : Str) : MetaMap :=
  if jsTrim line = [] then m
  else
    match splitOnChar ':' line with
    | [] => m
    | key :: values =>
      if key ≠ [] ∧ values ≠ [] then
        updateMeta m (jsTrim key) (jsTrim (joinWith ':' values))
      else m

/-- `MarkdownParser.parseFrontMatter`: split the front-matter block on
newlines and process each line in order. -/
def parseFrontMatter (frontMatter : Str) : MetaMap :=
  (splitOnChar '\n' frontMatter).foldl processLine emptyMeta

/-- The opening fence recognised by the front-matter regex `^---\n`. -/
def fenceOpen : Str := ['-', '-', '-', '\n']

/-- The closing fence recognised by the front-matter regex `\n---\n`. -/
def fenceClose : Str := ['\n', '-', '-', '-', '\n']

/-- Boolean test that `pat` is an initial segment of `s`. -/
def startsWith : Str → Str → Bool
  | _, [] => true
  | [], _ :: _ => false
  | c :: cs, p :: ps => c = p && startsWith cs ps

/-- Boolean test that `pat` occurs contiguously somewhere in `s`. -/
def containsSeq (pat : Str) : Str → Bool
  | [] => startsWith [] pat
  | c :: cs => startsWith (c :: cs) pat || containsSeq pat cs

/-- The search performed by the lazy group of the regex
`^---\n([\s\S]*?)\n---\n([\s\S]*)$` after the opening fence has been
consumed: find the earliest occurrence of `\n---\n`; everything before it
is the front-matter block, everything after it is the body. -/
def findClose : Str → Option (Str × Str)
  | [] => none
  | c :: cs =>
    if startsWith (c :: cs) fenceClose then some ([], (c :: cs).drop 5)
    else
      match findClose cs with
      | some (m, b) => some (c :: m, b)
      | none => none

/-- `MarkdownParser.splitFrontMatter`: match the front-matter regex; on a
match return `[frontMatter, body]`, otherwise `['', markdown]`. -/
def splitFrontMatter (s : Str) : Str × Str :=
  if startsWith s fenceOpen then
    match findClose (s.drop 4) with
    | some (m, b) => (m, b)
    | none => ([], s)
  else ([], s)

/-- `MarkdownParser.parseMarkdown`: run the third-party converter
(`marked.parse`, supplied as an oracle); if it throws (`none`), return the
original text unchanged. -/
def parseMarkdown (conv : Str → Option Str) (markdown : Str) : Str :=
  (conv markdown).getD markdown

/-- The result shape of `MarkdownParser.parseContent`. -/
structure ParsedDocument where
  metadata : MetaMap
  content : Str

/-- `MarkdownParser.parseContent`: split off the front matter, parse it
into metadata, convert the remaining body. -/
def parseContent (conv : Str → Option Str) (markdown : Str) : ParsedDocument :=
  let p := splitFrontMatter markdown
  { metadata := parseFrontMatter p.1, content := parseMarkdown conv p.2 }

/-! ## Content store (`ContentManager`) -/

/-- JavaScript `Map.prototype.set`: replace the value in place when the key
is already present (keeping its position), otherwise append the new entry
at the end. -/
def mapSet {α β : Type} [DecidableEq α] (m : List (α × β)) (k : α) (v : β) :
    List (α × β) :=
  if k ∈ m.map Prod.fst then
    m.map (fun p => if p.1 = k then (k, v) else p)
  else m ++ [(k, v)]

/-- JavaScript `Map.prototype.get`. -/
def mapGet {α β : Type} [DecidableEq α] (m : List (α × β)) (k : α) : Option β :=
  (m.find? (fun p => p.1 = k)).map Prod.snd

/-- `ContentManager.loadAlbumData`: fetch+parse the album's info document
via `MarkdownParser.loadContent` (supplied as an oracle on paths; `none`
models a failed fetch or parse, which the method catches and turns into a
`null` return); on success augment the metadata with the three derived
paths. -/
def loadAlbumData (loadContent : String → Option ParsedDocument)
    (albumDir : String) : Option ParsedDocument :=
  match loadContent ("content/albums/" ++ albumDir ++ "/info.md") with
  | none => none
  | some d =>
    some { d with
      metadata :=
        updateMeta
          (updateMeta
            (updateMeta d.metadata "coverPath".toList
              ("content/albums/" ++ albumDir ++ "/cover.jpg").toList)
            "tracksDir".toList
            ("content/albums/" ++ albumDir ++ "/tracks/").toList)
          "lyricsDir".toList
          ("content/albums/" ++ albumDir ++ "/lyrics/").toList }

/-- The body of the `for (const dir of albumDirs)` loop in
`ContentManager.discoverAlbums`: a failed album load contributes nothing,
a successful one is inserted into the albums map. -/
def discoverStep (loadContent : String → Option ParsedDocument)
    (albums : List (String × ParsedDocument)) (dir : String) :
    List (String × ParsedDocument) :=
  match loadAlbumData loadContent dir with
  | some a => mapSet albums dir a
  | none => albums

/-- The albums map built by iterating `discoverStep` over the index's
`albumDirectories` list in order. -/
def buildAlbums (loadContent : String → Option ParsedDocument)
    (dirs : List String) : List (String × ParsedDocument) :=
  dirs.foldl (discoverStep loadContent) []

/-- `ContentManager.discoverAlbums`: `fetchIndex` is the oracle for
fetching and JSON-decoding `content/albums/index.json` (`none` models a
rejected fetch or decode error, which the method rethrows); on success the
albums map is populated from the listed directories. -/
def discoverAlbums (fetchIndex : Option (List String))
    (loadContent : String → Option ParsedDocument) :
    Option (List (String × ParsedDocument)) :=
  match fetchIndex with
  | none => none
  | some dirs => some (buildAlbums loadContent dirs)

/-- The fixed list of static files loaded by
`ContentManager.loadStaticContent`, in source order. -/
def staticFiles : List String := ["bio", "news", "home"]

/-- The path fetched for a static file. -/
def staticPath (file : String) : String := "content/" ++ file ++ ".md"

/-- `ContentManager.loadStaticContent`: for each static file, fetch+parse
it; on success cache it under the file name; a failure is logged and
skipped. -/
def loadStaticContent (loadContent : String → Option ParsedDocument) :
    List (String × ParsedDocument) :=
  staticFiles.foldl
    (fun cache file =>
      match loadContent (staticPath file) with
      | some c => mapSet cache file c
      | none => cache) []

/-- The `ContentManager` state after initialization: the albums map and
the static-document cache. -/
structure Store where
  albums : List (String × ParsedDocument)
  contentCache : List (String × ParsedDocument)

/-- `ContentManager.initialize`: album discovery runs first and its
failure (index fetch failure) propagates; static-content loading never
throws. -/
def initializeManager (fetchIndex : Option (List String))
    (loadContent : String → Option ParsedDocument) : Option Store :=
  match discoverAlbums fetchIndex loadContent with
  | none => none
  | some albums =>
    some { albums := albums, contentCache := loadStaticContent loadContent }

/-! ## Section rendering (`ContentManager.loadSection` and friends) -/

/-- The data interpolated into one album card by
`ContentManager.createAlbumElement`. -/
structure AlbumCard where
  dir : String
  title : Option Str
  releaseDate : Option Str
  trackCount : Nat
  coverPath : Option Str

/-- `ContentManager.createAlbumElement`: reading
`albumData.metadata.tracks.length` throws a `TypeError` when the metadata
has no `tracks` entry (modelled as `none`); otherwise the card is built
from the metadata fields (front-matter values are strings, so `.length`
is the string length). -/
def createAlbumElement (dir : String) (a : ParsedDocument) : Option AlbumCard :=
  match a.metadata "tracks".toList with
  | none => none
  | some tr =>
    some { dir := dir
           title := a.metadata "title".toList
           releaseDate := a.metadata "release_date".toList
           trackCount := tr.length
           coverPath := a.metadata "coverPath".toList }

/-- The `for (const [dir, albumData] of this.albums)` loop of
`ContentManager.renderMusicCatalog`: cards are appended in map iteration
(= insertion) order; an exception thrown by `createAlbumElement` aborts
the loop (the flag records whether the loop ran to completion). -/
def renderAlbumList : List (String × ParsedDocument) → List AlbumCard × Bool
  | [] => ([], true)
  | (dir, a) :: rest =>
    match createAlbumElement dir a with
    | none => ([], false)
    | some card =>
      let r := renderAlbumList rest
      (card :: r.1, r.2)

/-- `ContentManager.renderMusicCatalog` over the albums map (the grid is
cleared first, so the appended cards are exactly the returned list). -/
def renderMusicCatalog (albums : List (String × ParsedDocument)) :
    List AlbumCard × Bool :=
  renderAlbumList albums

/-- The observable outcome of one `ContentManager.loadSection` call. -/
inductive SectionRender where
  | noop
  | uncaughtError
  | missingContainer
  | music (cards : List AlbumCard) (completed : Bool)
  | staticSection (cacheKey : String) (cached : Option ParsedDocument)
  | unknown

/-- The possible outcomes of `document.querySelector('#' + sectionId)`:
the call throws a `SyntaxError` DOMException when `'#' + sectionId` is
not a valid CSS selector (e.g. for `sectionId = "123"`), returns `null`
when no element matches, or returns the container element. -/
inductive QueryResult where
  | thrown
  | missing
  | found

/-- `ContentManager.loadSection`: empty identifier returns immediately,
before the container lookup.  The `document.querySelector` call sits
outside the `try` block, so when it throws (invalid selector) the async
method rejects, and since the navigation click handler does not await
`loadSection`, that rejection surfaces as an uncaught in-promise error.
A `null` container logs an error and aborts.  Otherwise the switch
dispatches `music` to the catalogue renderer, `about`/`news`/`home` to
`renderStaticContent` with the cache keys `'bio'`/`'news'`/`'home'`, and
anything else to a logged warning. -/
def loadSection (st : Store) (dom : String → QueryResult)
    (sectionId : String) : SectionRender :=
  if sectionId = "" then .noop
  else
    match dom sectionId with
    | .thrown => .uncaughtError
    | .missing => .missingContainer
    | .found =>
      if sectionId = "music" then
        .music (renderMusicCatalog st.albums).1 (renderMusicCatalog st.albums).2
      else if sectionId = "about" then
        .staticSection "bio" (mapGet st.contentCache "bio")
      else if sectionId = "news" then
        .staticSection "news" (mapGet st.contentCache "news")
      else if sectionId = "home" then
        .staticSection "home" (mapGet st.contentCache "home")
      else .unknown

/-- Whether a `loadSection` outcome mutates the DOM: the catalogue
renderer clears the grid unconditionally; `renderStaticContent` writes
only when the cache lookup succeeded; every other outcome — including a
selector throw, which happens before any write — leaves the DOM
untouched. -/
def mutatesDom : SectionRender → Bool
  | .noop => false
  | .uncaughtError => false
  | .missingContainer => false
  | .music _ _ => true
  | .staticSection _ cached => cached.isSome
  | .unknown => false

/-- Whether a `loadSection` outcome surfaced an uncaught (in-promise)
error to the page. -/
def raisesUncaught : SectionRender → Bool
  | .uncaughtError => true
  | _ => false

/-- The cache key a `loadSection` outcome read, when it rendered a static
section. -/
def renderedStaticKey : SectionRender → Option String
  | .staticSection k _ => some k
  | _ => none

/-! ## Lyrics (`ContentManager.loadLyrics`, `showLyricsModal`) -/

/-- `ContentManager.loadLyrics`: `MarkdownParser.loadContent` returns
`null` when the fetch or parse failed; reading `content.content` on
`null` throws, the catch returns the literal fallback string. -/
def loadLyrics (fetched : Option ParsedDocument) : Str :=
  match fetched with
  | some d => d.content
  | none => "Lyrics not available".toList

/-- The overlay created by `ContentManager.showLyricsModal`. -/
structure LyricsModal where
  className : String
  content : Str

/-- `ContentManager.showLyricsModal`: unconditionally creates and shows a
modal with the given lyrics text as its content. -/
def showLyricsModal (lyricsContent : Str) : LyricsModal :=
  { className := "modal lyrics-modal", content := lyricsContent }

/-! ## Playback widget (`AudioPlayer`) -/

/-- The widget state touched by `loadTrack` / `resetPlayer`: the media
source, the progress bar width, the `playing` CSS class and the control's
aria label. -/
structure PlayerState where
  src : Option String
  progressWidth : String
  playing : Bool
  ariaLabel : String

/-- `AudioPlayer.resetPlayer`: progress to `0%`, `playing` class removed,
aria label back to `Play`; the media source is not touched. -/
def resetPlayer (s : PlayerState) : PlayerState :=
  { s with progressWidth := "0%", playing := false, ariaLabel := "Play" }

/-- `AudioPlayer.loadTrack`: set the media source, then reset. -/
def loadTrack (s : PlayerState) (url : String) : PlayerState :=
  resetPlayer { s with src := some url }

/-- The `ended` media-event handler registered in `setupEventListeners`
is exactly `resetPlayer`. -/
def onEnded : PlayerState → PlayerState := resetPlayer

/-- JavaScript `String.prototype.padStart(2, '0')`. -/
def padStart2 (s : String) : String :=
  if s.length ≥ 2 then s else String.mk (List.replicate (2 - s.length) '0') ++ s

/-- JavaScript `%` on finite numbers: the remainder takes the sign of the
dividend, using truncating division. -/
def jsMod (a b : ℚ) : ℚ :=
  a - b * (if a / b < 0 then ⌈a / b⌉ else ⌊a / b⌋)

/-- `AudioPlayer.formatTime`.  The input is `none` for `NaN` / `undefined`
durations (e.g. `audio.duration` before metadata is available): JavaScript
arithmetic and `Math.floor` propagate `NaN` without throwing, the template
renders it as the string `NaN` and `"NaN".padStart(2, '0')` is unchanged,
so the result is `"NaN:NaN"` — the catch branch returning `'0:00'` is not
reached.  A finite duration is `some q`. -/
def formatTime : Option ℚ → String
  | none => "NaN:NaN"
  | some q =>
    toString ⌊q / 60⌋ ++ ":" ++ padStart2 (toString ⌊jsMod q 60⌋)

/-! ## Concrete oracles used by witnesses and counterexamples -/

/-- A trivial parsed document. -/
def docEmpty : ParsedDocument := { metadata := emptyMeta, content := [] }

/-- An oracle on which every fetch+parse succeeds, returning `docEmpty`. -/
def allDocsOracle : String → Option ParsedDocument := fun _ => some docEmpty

/-- An oracle on which every fetch+parse fails. -/
def noDocsOracle : String → Option ParsedDocument := fun _ => none

/-- The input exercised by the front-matter counterexample: an opening
fence line immediately followed by a closing fence line. -/
def adjacentFences : Str := "---\n---\nbody".toList

/-- A parsed document whose front matter declared a `tracks` entry. -/
def tracksDoc : ParsedDocument :=
  { metadata := updateMeta emptyMeta "tracks".toList "one.mp3, two.mp3".toList
    content := [] }

/-- An oracle on which every fetch+parse succeeds with `tracksDoc`. -/
def allTracksOracle : String → Option ParsedDocument := fun _ => some tracksDoc

/-- An oracle on which album `a`'s info document declares tracks but
album `b`'s info document parses successfully with no `tracks` line. -/
def mixedTracksOracle : String → Option ParsedDocument :=
  fun p => if p = "content/albums/a/info.md" then some tracksDoc else some docEmpty

/-- A DOM oracle consistent with a real browser: `'#123'` is not a valid
CSS selector (an ID selector must not start with a digit), so
`document.querySelector('#123')` throws; every other queried identifier
is found. -/
def invalidSelectorDom : String → QueryResult :=
  fun s => if s = "123" then .thrown else .found

/-! ## Helper lemmas -/

theorem startsWith_append_self (p r : Str) : startsWith (p ++ r) p = true := by
  induction p with
  | nil => cases r <;> rfl
  | cons c cs ih => simp [startsWith, ih]

theorem startsWith_append_of_le (p : Str) :
    ∀ (l r : Str), p.length ≤ l.length →
      startsWith (l ++ r) p = startsWith l p := by
  induction p with
  | nil => intro l r _; cases l <;> cases r <;> rfl
  | cons x xs ih =>
    intro l r hlen
    cases l with
    | nil => simp at hlen
    | cons c cs =>
      simp only [List.cons_append, startsWith, List.append_eq]
      rw [ih cs r (by simpa using hlen)]

theorem findClose_of_not_containsSeq (l : Str)
    (h : containsSeq fenceClose l = false) : findClose l = none := by
  induction l with
  | nil => rfl
  | cons c cs ih =>
    rw [containsSeq, Bool.or_eq_false_iff] at h
    rw [findClose, if_neg (by simp [h.1])]
    rw [ih h.2]

theorem findClose_append (b : Str) :
    ∀ m : Str, containsSeq fenceClose (m ++ ['\n', '-', '-', '-']) = false →
      findClose (m ++ fenceClose ++ b) = some (m, b) := by
  intro m
  induction m with
  | nil =>
    intro _
    have h5 : ([] : Str) ++ fenceClose ++ b
        = '\n' :: '-' :: '-' :: '-' :: '\n' :: b := by
      simp [fenceClose]
    rw [h5, findClose, if_pos (by simp [startsWith, fenceClose])]
    simp
  | cons c m ih =>
    intro h
    rw [List.cons_append, containsSeq, Bool.or_eq_false_iff] at h
    have hsw : startsWith (c :: (m ++ (fenceClose ++ b))) fenceClose = false := by
      have hassoc : c :: (m ++ (fenceClose ++ b))
          = (c :: (m ++ ['\n', '-', '-', '-'])) ++ ('\n' :: b) := by
        simp [fenceClose]
      rw [hassoc,
        startsWith_append_of_le fenceClose (c :: (m ++ ['\n', '-', '-', '-']))
          ('\n' :: b) (by simp [fenceClose])]
      exact h.1
    have ih' : findClose (m ++ (fenceClose ++ b)) = some (m, b) := by
      simpa [List.append_assoc] using ih h.2
    have hshape : (c :: m) ++ fenceClose ++ b = c :: (m ++ (fenceClose ++ b)) := by
      simp
    rw [hshape, findClose, if_neg (by simp [hsw]), ih']

theorem splitOnChar_ne_nil (c : Char) (l : Str) : splitOnChar c l ≠ [] := by
  induction l with
  | nil => simp [splitOnChar]
  | cons x xs ih =>
    rw [splitOnChar]
    split
    · simp
    · cases h : splitOnChar c xs with
      | nil => exact absurd h ih
      | cons s ss => simp

theorem splitOnChar_of_not_mem (c : Char) (l : Str) (h : c ∉ l) :
    splitOnChar c l = [l] := by
  induction l with
  | nil => rfl
  | cons x xs ih =>
    simp only [List.mem_cons, not_or] at h
    rw [splitOnChar, if_neg (fun hx => h.1 hx.symm), ih h.2]

theorem splitOnChar_of_mem (c : Char) :
    ∀ l : Str, c ∈ l →
      splitOnChar c l = beforeSep c l :: splitOnChar c (afterSep c l) := by
  intro l
  induction l with
  | nil => intro h; simp at h
  | cons x xs ih =>
    intro h
    by_cases hx : x = c
    · subst hx
      rw [splitOnChar, if_pos rfl]
      simp [beforeSep, afterSep, List.takeWhile, List.dropWhile]
    · have hmem : c ∈ xs := by
        rcases List.mem_cons.mp h with h1 | h1
        · exact absurd h1.symm hx
        · exact h1
      rw [splitOnChar, if_neg hx, ih hmem]
      simp [beforeSep, afterSep, List.takeWhile, List.dropWhile, hx]

theorem joinWith_splitOnChar (c : Char) (l : Str) :
    joinWith c (splitOnChar c l) = l := by
  induction l with
  | nil => rfl
  | cons x xs ih =>
    rw [splitOnChar]
    split
    · next hx =>
      subst hx
      cases hs : splitOnChar x xs with
      | nil => exact absurd hs (splitOnChar_ne_nil x xs)
      | cons s ss =>
        rw [← hs]
        cases hss : ss with
        | nil =>
          rw [hs, hss] at ih ⊢
          simpa [joinWith] using congrArg (x :: ·) ih
        | cons t ts =>
          rw [hs, hss] at ih ⊢
          simpa [joinWith] using congrArg (x :: ·) ih
    · next hx =>
      cases hs : splitOnChar c xs with
      | nil => exact absurd hs (splitOnChar_ne_nil c xs)
      | cons s ss =>
        rw [hs] at ih
        cases hss : ss with
        | nil =>
          rw [hss] at ih
          simpa [joinWith] using congrArg (x :: ·) ih
        | cons t ts =>
          rw [hss] at ih
          simpa [joinWith] using congrArg (x :: ·) ih

theorem splitFrontMatter_append (m b : Str)
    (h : containsSeq fenceClose (m ++ ['\n', '-', '-', '-']) = false) :
    splitFrontMatter (fenceOpen ++ m ++ fenceClose ++ b) = (m, b) := by
  have hshape : fenceOpen ++ m ++ fenceClose ++ b
      = '-' :: '-' :: '-' :: '\n' :: (m ++ (fenceClose ++ b)) := by
    simp [fenceOpen]
  rw [hshape, splitFrontMatter, if_pos (by simp [startsWith, fenceOpen])]
  have hdrop : List.drop 4 ('-' :: '-' :: '-' :: '\n' :: (m ++ (fenceClose ++ b)))
      = m ++ (fenceClose ++ b) := rfl
  rw [hdrop]
  have hf : findClose (m ++ (fenceClose ++ b)) = some (m, b) := by
    simpa [List.append_assoc] using findClose_append b m h
  rw [hf]

theorem splitFrontMatter_no_match (s : Str)
    (h : ¬ (startsWith s fenceOpen = true ∧
            containsSeq fenceClose (s.drop 4) = true)) :
    splitFrontMatter s = ([], s) := by
  rw [splitFrontMatter]
  by_cases hsw : startsWith s fenceOpen = true
  · rw [if_pos hsw]
    have hcs : containsSeq fenceClose (s.drop 4) = false := by
      cases hc : containsSeq fenceClose (s.drop 4)
      · rfl
      · exact absurd ⟨hsw, hc⟩ h
    rw [findClose_of_not_containsSeq _ hcs]
  · rw [if_neg hsw]

/-! ## Claim theorems -/

/-- C1: the document parser is total — `parseContent` is a total function
returning a `ParsedDocument` for every input string — and when the
prose-to-markup converter fails on the body (the oracle returns `none`),
the content field falls back to the unconverted body text while the
metadata is still parsed from the front-matter block. -/
theorem C1_parse_total_converter_fallback (conv : Str → Option Str) (md : Str)
    (h : conv (splitFrontMatter md).2 = none) :
    parseContent conv md =
      { metadata := parseFrontMatter (splitFrontMatter md).1
        content := (splitFrontMatter md).2 } := by
  simp [parseContent, parseMarkdown, h]

theorem C1_witness :
    parseContent (fun _ => none) "---\nt: x\n---\nbody".toList =
      { metadata := parseFrontMatter (splitFrontMatter "---\nt: x\n---\nbody".toList).1
        content := (splitFrontMatter "---\nt: x\n---\nbody".toList).2 } :=
  C1_parse_total_converter_fallback (fun _ => none) "---\nt: x\n---\nbody".toList rfl

/-- C2 counterexample: the input `"---\n---\nbody"` starts with a fence
line of exactly three hyphens on its own line and its second line is a
matching fence line, so the claim predicts empty metadata and a body of
`"body"`; but the regex `^---\n([\s\S]*?)\n---\n` demands a newline
between the fences, so the code treats the whole input as body (shown
here with the identity converter). -/
theorem C2_counterexample :
    (parseContent (fun s => some s) adjacentFences).content = adjacentFences ∧
    adjacentFences ≠ "body".toList := by
  exact ⟨by decide, by decide⟩

/-- C2 (amended): a front-matter block is recognised exactly when the
input is `"---\n" ++ m ++ "\n---\n" ++ b` with the shown closing fence the
earliest occurrence of `"\n---\n"` after the opening fence — so at least
one (possibly empty) line must sit between the fences; then `m` is the
metadata block and `b` the body.  When the input does not start with the
fence line, or no `"\n---\n"` occurs after it, metadata is empty and the
whole input is the (converted) body. -/
theorem C2_fence_split_amended (conv : Str → Option Str) :
    (∀ m b : Str,
        containsSeq fenceClose (m ++ ['\n', '-', '-', '-']) = false →
        parseContent conv (fenceOpen ++ m ++ fenceClose ++ b) =
          { metadata := parseFrontMatter m, content := parseMarkdown conv b }) ∧
    (∀ s : Str,
        ¬ (startsWith s fenceOpen = true ∧
           containsSeq fenceClose (s.drop 4) = true) →
        parseContent conv s =
          { metadata := emptyMeta, content := parseMarkdown conv s }) := by
  constructor
  · intro m b h
    rw [parseContent, splitFrontMatter_append m b h]
  · intro s h
    rw [parseContent, splitFrontMatter_no_match s h]
    rfl

theorem C2_fence_split_amended_witness :
    parseContent (fun s => some s)
        (fenceOpen ++ "t: x".toList ++ fenceClose ++ "body".toList) =
      { metadata := parseFrontMatter "t: x".toList
        content := parseMarkdown (fun s => some s) "body".toList } ∧
    parseContent (fun s => some s) "plain text".toList =
      { metadata := emptyMeta
        content := parseMarkdown (fun s => some s) "plain text".toList } :=
  ⟨(C2_fence_split_amended (fun s => some s)).1 "t: x".toList "body".toList
      (by decide),
   (C2_fence_split_amended (fun s => some s)).2 "plain text".toList
      (by decide)⟩

/-- C3: front-matter line handling — blank lines are skipped; lines with
no colon are skipped; lines whose segment before the first colon is empty
are skipped; every other line records an entry whose key is the trimmed
segment before the first colon and whose value is the trimmed remainder
after the first colon; a later assignment to the same key overwrites the
earlier one; and `parseFrontMatter` is the fold of this handling over the
newline-split lines of the block. -/
theorem C3_metadata_line_handling :
    (∀ (m : MetaMap) (line : Str), jsTrim line = [] →
        processLine m line = m) ∧
    (∀ (m : MetaMap) (line : Str), ':' ∉ line →
        processLine m line = m) ∧
    (∀ (m : MetaMap) (line : Str), beforeSep ':' line = [] →
        processLine m line = m) ∧
    (∀ (m : MetaMap) (line : Str), jsTrim line ≠ [] → ':' ∈ line →
        beforeSep ':' line ≠ [] →
        processLine m line =
          updateMeta m (jsTrim (beforeSep ':' line))
            (jsTrim (afterSep ':' line))) ∧
    (∀ (m : MetaMap) (k v w : Str),
        updateMeta (updateMeta m k v) k w = updateMeta m k w) ∧
    (∀ fm : Str,
        parseFrontMatter fm = (splitOnChar '\n' fm).foldl processLine emptyMeta) := by
  refine ⟨?_, ?_, ?_, ?_, ?_, fun _ => rfl⟩
  · intro m line h
    rw [processLine, if_pos h]
  · intro m line h
    by_cases hb : jsTrim line = []
    · rw [processLine, if_pos hb]
    · rw [processLine, if_neg hb, splitOnChar_of_not_mem ':' line h]
      simp
  · intro m line h
    by_cases hb : jsTrim line = []
    · rw [processLine, if_pos hb]
    · cases line with
      | nil => exact absurd rfl hb
      | cons x xs =>
        have hx : x = ':' := by
          by_contra hne
          have : beforeSep ':' (x :: xs) = x :: xs.takeWhile (fun y => !decide (y = ':')) := by
            simp [beforeSep, List.takeWhile, hne]
          rw [this] at h
          exact List.noConfusion h
        subst hx
        rw [processLine, if_neg hb, splitOnChar, if_pos rfl]
        simp
  · intro m line h1 h2 h3
    rw [processLine, if_neg h1, splitOnChar_of_mem ':' line h2]
    show (if beforeSep ':' line ≠ [] ∧ splitOnChar ':' (afterSep ':' line) ≠ [] then
        updateMeta m (jsTrim (beforeSep ':' line))
          (jsTrim (joinWith ':' (splitOnChar ':' (afterSep ':' line))))
      else m) = _
    rw [if_pos ⟨h3, splitOnChar_ne_nil ':' (afterSep ':' line)⟩,
      joinWith_splitOnChar]
  · intro m k v w
    funext x
    by_cases hx : x = k <;> simp [updateMeta, hx]

theorem C3_metadata_line_handling_witness :
    processLine emptyMeta "   ".toList = emptyMeta ∧
    processLine emptyMeta "no colon here".toList = emptyMeta ∧
    processLine emptyMeta ": value".toList = emptyMeta ∧
    processLine emptyMeta "title: Hello: World".toList =
      updateMeta emptyMeta (jsTrim (beforeSep ':' "title: Hello: World".toList))
        (jsTrim (afterSep ':' "title: Hello: World".toList)) ∧
    updateMeta (updateMeta emptyMeta "k".toList "1".toList) "k".toList "2".toList =
      updateMeta emptyMeta "k".toList "2".toList ∧
    parseFrontMatter "a: 1\na: 2".toList =
      (splitOnChar '\n' "a: 1\na: 2".toList).foldl processLine emptyMeta :=
  ⟨C3_metadata_line_handling.1 emptyMeta "   ".toList (by decide),
   C3_metadata_line_handling.2.1 emptyMeta "no colon here".toList (by decide),
   C3_metadata_line_handling.2.2.1 emptyMeta ": value".toList (by decide),
   C3_metadata_line_handling.2.2.2.1 emptyMeta "title: Hello: World".toList
     (by decide) (by decide) (by decide),
   C3_metadata_line_handling.2.2.2.2.1 emptyMeta "k".toList "1".toList "2".toList,
   C3_metadata_line_handling.2.2.2.2.2 "a: 1\na: 2".toList⟩

/-- C4: a failure to fetch or parse an individual album's info document
is non-fatal — the album is simply skipped and discovery continues with
the remaining identifiers — while a failure of the index fetch itself
makes discovery, and hence initialization, fail as a whole. -/
theorem C4_index_fatal_album_nonfatal
    (loadContent : String → Option ParsedDocument) :
    discoverAlbums none loadContent = none ∧
    initializeManager none loadContent = none ∧
    (∀ dirs : List String,
        (discoverAlbums (some dirs) loadContent).isSome = true) ∧
    (∀ dirs : List String,
        (initializeManager (some dirs) loadContent).isSome = true) ∧
    (∀ (xs ys : List String) (dir : String),
        loadAlbumData loadContent dir = none →
        discoverAlbums (some (xs ++ dir :: ys)) loadContent =
          discoverAlbums (some (xs ++ ys)) loadContent) := by
  refine ⟨rfl, rfl, fun dirs => rfl, fun dirs => rfl, ?_⟩
  intro xs ys dir h
  have hstep : ∀ acc, discoverStep loadContent acc dir = acc := fun acc => by
    rw [discoverStep, h]
  simp [discoverAlbums, buildAlbums, List.foldl_append, hstep]

theorem C4_witness :
    discoverAlbums none noDocsOracle = none ∧
    (discoverAlbums (some ["x", "a", "y"]) noDocsOracle).isSome = true ∧
    discoverAlbums (some (["x"] ++ "a" :: ["y"])) noDocsOracle =
      discoverAlbums (some (["x"] ++ ["y"])) noDocsOracle :=
  ⟨(C4_index_fatal_album_nonfatal noDocsOracle).1,
   (C4_index_fatal_album_nonfatal noDocsOracle).2.2.1 ["x", "a", "y"],
   (C4_index_fatal_album_nonfatal noDocsOracle).2.2.2.2 ["x"] ["y"] "a" rfl⟩

theorem mapSet_of_not_mem {α β : Type} [DecidableEq α]
    (m : List (α × β)) (k : α) (v : β) (h : k ∉ m.map Prod.fst) :
    mapSet m k v = m ++ [(k, v)] := by
  rw [mapSet, if_neg h]

theorem buildAlbums_go (loadContent : String → Option ParsedDocument) :
    ∀ (dirs : List String) (acc : List (String × ParsedDocument)),
      dirs.Nodup → (∀ d ∈ dirs, d ∉ acc.map Prod.fst) →
      dirs.foldl (discoverStep loadContent) acc =
        acc ++ dirs.filterMap
          (fun d => (loadAlbumData loadContent d).map (fun a => (d, a))) := by
  intro dirs
  induction dirs with
  | nil => intro acc _ _; simp
  | cons d ds ih =>
    intro acc hnd hdisj
    rw [List.foldl_cons]
    cases hl : loadAlbumData loadContent d with
    | none =>
      have hstep : discoverStep loadContent acc d = acc := by
        rw [discoverStep, hl]
      rw [hstep, ih acc (List.Nodup.of_cons hnd)
        (fun x hx => hdisj x (List.mem_cons_of_mem d hx))]
      simp [List.filterMap_cons, hl]
    | some a =>
      have hstep : discoverStep loadContent acc d = acc ++ [(d, a)] := by
        rw [discoverStep, hl]
        exact mapSet_of_not_mem acc d a (hdisj d (List.mem_cons_self d ds))
      have hnodup_head : d ∉ ds := (List.nodup_cons.mp hnd).1
      have hdisj' : ∀ x ∈ ds, x ∉ (acc ++ [(d, a)]).map Prod.fst := by
        intro x hx
        simp only [List.map_append, List.map_cons, List.map_nil,
          List.mem_append, List.mem_singleton, not_or]
        exact ⟨hdisj x (List.mem_cons_of_mem d hx),
          fun he => hnodup_head (he ▸ hx)⟩
      rw [hstep, ih (acc ++ [(d, a)]) (List.Nodup.of_cons hnd) hdisj']
      simp [List.filterMap_cons, hl]

theorem filterMap_album_keys (loadContent : String → Option ParsedDocument) :
    ∀ dirs : List String,
      (dirs.filterMap
        (fun d => (loadAlbumData loadContent d).map (fun a => (d, a)))).map
          Prod.fst =
        dirs.filter (fun d => (loadAlbumData loadContent d).isSome) := by
  intro dirs
  induction dirs with
  | nil => rfl
  | cons d ds ih =>
    cases hl : loadAlbumData loadContent d with
    | none => simp [List.filterMap_cons, List.filter_cons, hl, ih]
    | some a => simp [List.filterMap_cons, List.filter_cons, hl, ih]

theorem renderAlbumList_all_tracks :
    ∀ albums : List (String × ParsedDocument),
      (∀ p ∈ albums, (p.2.metadata "tracks".toList).isSome = true) →
      (renderAlbumList albums).2 = true ∧
      (renderAlbumList albums).1.map AlbumCard.dir = albums.map Prod.fst := by
  intro albums
  induction albums with
  | nil => intro _; exact ⟨rfl, rfl⟩
  | cons p rest ih =>
    intro h
    obtain ⟨d, a⟩ := p
    obtain ⟨tr, htr⟩ := Option.isSome_iff_exists.mp
      (h (d, a) (List.mem_cons_self _ _))
    have hcard : createAlbumElement d a =
        some { dir := d
               title := a.metadata "title".toList
               releaseDate := a.metadata "release_date".toList
               trackCount := tr.length
               coverPath := a.metadata "coverPath".toList } := by
      rw [createAlbumElement, htr]
    have hrest := ih (fun q hq => h q (List.mem_cons_of_mem _ hq))
    rw [renderAlbumList, hcard]
    exact ⟨hrest.1, by simp [hrest.2]⟩

theorem renderAlbumList_abort :
    ∀ (good : List (String × ParsedDocument)) (bad : String × ParsedDocument)
      (rest : List (String × ParsedDocument)),
      (∀ p ∈ good, (p.2.metadata "tracks".toList).isSome = true) →
      bad.2.metadata "tracks".toList = none →
      (renderAlbumList (good ++ bad :: rest)).1 = (renderAlbumList good).1 ∧
      (renderAlbumList (good ++ bad :: rest)).2 = false := by
  intro good
  induction good with
  | nil =>
    intro bad rest _ hbad
    obtain ⟨d, a⟩ := bad
    have hfail : createAlbumElement d a = none := by
      rw [createAlbumElement, hbad]
    rw [List.nil_append]
    simp [renderAlbumList, hfail]
  | cons p good ih =>
    intro bad rest h hbad
    obtain ⟨d, a⟩ := p
    obtain ⟨tr, htr⟩ := Option.isSome_iff_exists.mp
      (h (d, a) (List.mem_cons_self _ _))
    have hcard : createAlbumElement d a =
        some { dir := d
               title := a.metadata "title".toList
               releaseDate := a.metadata "release_date".toList
               trackCount := tr.length
               coverPath := a.metadata "coverPath".toList } := by
      rw [createAlbumElement, htr]
    have hrest := ih bad rest (fun q hq => h q (List.mem_cons_of_mem _ hq)) hbad
    simp only [List.cons_append, renderAlbumList, hcard, List.append_eq]
    exact ⟨by rw [hrest.1], hrest.2⟩

/-- C5 counterexample: with an index `["a", "b"]` where both info
documents fetch and parse successfully but `b`'s front matter declares no
`tracks` entry, both albums are stored (keys `["a", "b"]`, in index
order), yet rendering the catalogue appends only one card and the loop
aborts — `createAlbumElement` throws a `TypeError` on
`metadata.tracks.length` for `b` — so the claim's unconditional "exactly
one card per stored album" is false at this input. -/
theorem C5_counterexample :
    discoverAlbums (some ["a", "b"]) mixedTracksOracle
        = some (buildAlbums mixedTracksOracle ["a", "b"]) ∧
    (buildAlbums mixedTracksOracle ["a", "b"]).map Prod.fst = ["a", "b"] ∧
    (renderMusicCatalog (buildAlbums mixedTracksOracle ["a", "b"])).1.length
        = 1 ∧
    (renderMusicCatalog (buildAlbums mixedTracksOracle ["a", "b"])).2
        = false := by
  exact ⟨rfl, rfl, rfl, rfl⟩

/-- C5 (amended): for an index of distinct identifiers, the insertion
order of the albums map equals the index order with failed albums absent
(discovery awaits each album in turn, so completion timing cannot reorder
it), and rendering the catalogue appends exactly one card per stored
album in that order provided every stored album's metadata declares a
`tracks` entry; a stored album without one makes card construction throw
on `metadata.tracks.length`, aborting the loop, so that album and every
later one get no card while the cards already appended remain. -/
theorem C5_catalogue_order_amended :
    (∀ (loadContent : String → Option ParsedDocument) (dirs : List String),
        dirs.Nodup →
        (∀ (d : String) (a : ParsedDocument),
            loadAlbumData loadContent d = some a →
            (a.metadata "tracks".toList).isSome = true) →
        ∃ albums,
          discoverAlbums (some dirs) loadContent = some albums ∧
          albums.map Prod.fst =
            dirs.filter (fun d => (loadAlbumData loadContent d).isSome) ∧
          (renderMusicCatalog albums).2 = true ∧
          (renderMusicCatalog albums).1.map AlbumCard.dir
            = albums.map Prod.fst) ∧
    (∀ (good : List (String × ParsedDocument)) (bad : String × ParsedDocument)
        (rest : List (String × ParsedDocument)),
        (∀ p ∈ good, (p.2.metadata "tracks".toList).isSome = true) →
        bad.2.metadata "tracks".toList = none →
        (renderMusicCatalog (good ++ bad :: rest)).1
            = (renderMusicCatalog good).1 ∧
        (renderMusicCatalog (good ++ bad :: rest)).2 = false) := by
  constructor
  · intro loadContent dirs hnd htracks
    refine ⟨buildAlbums loadContent dirs, rfl, ?_, ?_, ?_⟩
    all_goals
      have hb : buildAlbums loadContent dirs =
          dirs.filterMap
            (fun d => (loadAlbumData loadContent d).map (fun a => (d, a))) := by
        simpa [buildAlbums] using
          buildAlbums_go loadContent dirs [] hnd (by simp)
    · rw [hb, filterMap_album_keys]
    all_goals
      have hmem : ∀ p ∈ buildAlbums loadContent dirs,
          (p.2.metadata "tracks".toList).isSome = true := by
        intro p hp
        rw [hb] at hp
        obtain ⟨d, _, hd⟩ := List.mem_filterMap.mp hp
        obtain ⟨a, ha, hpa⟩ := Option.map_eq_some'.mp hd
        have := htracks d a ha
        rw [← hpa]
        exact this
    · exact (renderAlbumList_all_tracks _ hmem).1
    · exact (renderAlbumList_all_tracks _ hmem).2
  · exact renderAlbumList_abort

theorem C5_catalogue_order_amended_witness :
    (∃ albums,
      discoverAlbums (some ["a", "b"]) allTracksOracle = some albums ∧
      albums.map Prod.fst =
        (["a", "b"]).filter
          (fun d => (loadAlbumData allTracksOracle d).isSome) ∧
      (renderMusicCatalog albums).2 = true ∧
      (renderMusicCatalog albums).1.map AlbumCard.dir
        = albums.map Prod.fst) ∧
    ((renderMusicCatalog ([("a", tracksDoc)] ++ ("b", docEmpty) :: [])).1
        = (renderMusicCatalog [("a", tracksDoc)]).1 ∧
     (renderMusicCatalog ([("a", tracksDoc)] ++ ("b", docEmpty) :: [])).2
        = false) :=
  ⟨C5_catalogue_order_amended.1 allTracksOracle ["a", "b"] (by decide)
    (fun d a h => by
      have ha : a = { tracksDoc with
          metadata :=
            updateMeta
              (updateMeta
                (updateMeta tracksDoc.metadata "coverPath".toList
                  ("content/albums/" ++ d ++ "/cover.jpg").toList)
                "tracksDir".toList
                ("content/albums/" ++ d ++ "/tracks/").toList)
              "lyricsDir".toList
              ("content/albums/" ++ d ++ "/lyrics/").toList } := by
        rw [loadAlbumData] at h
        simp only [allTracksOracle] at h
        exact (Option.some_injective _ h).symm
      rw [ha]
      simp [updateMeta, tracksDoc]),
   C5_catalogue_order_amended.2 [("a", tracksDoc)] ("b", docEmpty) []
    (by
      intro p hp
      simp only [List.mem_singleton] at hp
      rw [hp]
      simp [tracksDoc, updateMeta])
    rfl⟩

/-- C6 counterexample: with an oracle on which every static document
loads successfully, the cache holds no entry under the section name
`about` — the about page's document is cached under the file name `bio` —
and rendering section `about` looks the cache up under key `bio`, not
`about`. -/
theorem C6_counterexample :
    mapGet (loadStaticContent allDocsOracle) "about" = none ∧
    renderedStaticKey
        (loadSection
          { albums := [], contentCache := loadStaticContent allDocsOracle }
          (fun _ => QueryResult.found) "about") = some "bio" ∧
    ("bio" : String) ≠ "about" := by
  refine ⟨rfl, rfl, by decide⟩

/-- C6 (amended): the static-document cache is keyed by source file name
(`bio`, `news`, `home`): a file that loads successfully is cached under
its file name; rendering sections `home` and `news` looks the cache up
under those same names, but rendering section `about` looks it up under
the key `bio` (no entry is ever stored or read under the key `about`). -/
theorem C6_cache_keyed_by_file_amended
    (loadContent : String → Option ParsedDocument) :
    (∀ (file : String) (doc : ParsedDocument), file ∈ staticFiles →
        loadContent (staticPath file) = some doc →
        mapGet (loadStaticContent loadContent) file = some doc) ∧
    (∀ (st : Store) (dom : String → QueryResult),
        dom "home" = QueryResult.found →
        loadSection st dom "home" =
          SectionRender.staticSection "home" (mapGet st.contentCache "home")) ∧
    (∀ (st : Store) (dom : String → QueryResult),
        dom "news" = QueryResult.found →
        loadSection st dom "news" =
          SectionRender.staticSection "news" (mapGet st.contentCache "news")) ∧
    (∀ (st : Store) (dom : String → QueryResult),
        dom "about" = QueryResult.found →
        loadSection st dom "about" =
          SectionRender.staticSection "bio" (mapGet st.contentCache "bio")) := by
  refine ⟨?_, ?_, ?_, ?_⟩
  · intro file doc hf hl
    simp only [staticFiles, List.mem_cons, List.not_mem_nil, or_false] at hf
    rcases hf with rfl | rfl | rfl
    · cases hn : loadContent (staticPath "news") <;>
      cases hh : loadContent (staticPath "home") <;>
        simp [loadStaticContent, staticFiles, hl, hn, hh, mapSet, mapGet,
          List.find?]
    · cases hb : loadContent (staticPath "bio") <;>
      cases hh : loadContent (staticPath "home") <;>
        simp [loadStaticContent, staticFiles, hl, hb, hh, mapSet, mapGet,
          List.find?]
    · cases hb : loadContent (staticPath "bio") <;>
      cases hn : loadContent (staticPath "news") <;>
        simp [loadStaticContent, staticFiles, hl, hb, hn, mapSet, mapGet,
          List.find?]
  · intro st dom h; simp [loadSection, h]
  · intro st dom h; simp [loadSection, h]
  · intro st dom h; simp [loadSection, h]

theorem C6_amended_witness :
    mapGet (loadStaticContent allDocsOracle) "bio" = some docEmpty ∧
    loadSection { albums := [], contentCache := loadStaticContent allDocsOracle }
        (fun _ => QueryResult.found) "about" =
      SectionRender.staticSection "bio"
        (mapGet (loadStaticContent allDocsOracle) "bio") :=
  ⟨(C6_cache_keyed_by_file_amended allDocsOracle).1 "bio" docEmpty
      (by decide) rfl,
   (C6_cache_keyed_by_file_amended allDocsOracle).2.2.2
      { albums := [], contentCache := loadStaticContent allDocsOracle }
      (fun _ => QueryResult.found) rfl⟩

/-- C7 counterexample: `"123"` is an unknown section identifier (it
matches no renderer path), but `'#123'` is not a valid CSS selector, so
`document.querySelector('#123')` — which sits outside the `try` block —
throws, and the unawaited async call surfaces it as an uncaught
in-promise error with no warning logged, falsifying "raises no uncaught
error, only logging a warning". -/
theorem C7_counterexample :
    loadSection { albums := [], contentCache := [] } invalidSelectorDom "123"
        = SectionRender.uncaughtError ∧
    raisesUncaught
        (loadSection { albums := [], contentCache := [] } invalidSelectorDom
          "123") = true ∧
    ("123" : String) ≠ "" ∧ ("123" : String) ≠ "music" ∧
    ("123" : String) ≠ "about" ∧ ("123" : String) ≠ "news" ∧
    ("123" : String) ≠ "home" := by
  refine ⟨rfl, rfl, by decide, by decide, by decide, by decide, by decide⟩

/-- C7 (amended): an empty section identifier is a no-op, before the
container lookup.  An unknown identifier whose `'#' + id` lookup does not
throw performs no DOM mutation and raises no uncaught error — the switch
default logs a warning when the container exists, and a missing container
logs an error and aborts.  But an identifier whose `'#' + id` is not a
valid CSS selector makes `document.querySelector` throw outside the
`try` block, and the unawaited call surfaces an uncaught in-promise error
(still with no DOM mutation, which happens only after the lookup). -/
theorem C7_sections_amended :
    (∀ (st : Store) (dom : String → QueryResult),
        loadSection st dom "" = SectionRender.noop ∧
        mutatesDom (loadSection st dom "") = false) ∧
    (∀ (st : Store) (dom : String → QueryResult) (s : String),
        s ≠ "" → s ≠ "music" → s ≠ "about" → s ≠ "news" → s ≠ "home" →
        dom s ≠ QueryResult.thrown →
        mutatesDom (loadSection st dom s) = false ∧
        raisesUncaught (loadSection st dom s) = false ∧
        (dom s = QueryResult.found →
          loadSection st dom s = SectionRender.unknown)) ∧
    (∀ (st : Store) (dom : String → QueryResult) (s : String),
        s ≠ "" → dom s = QueryResult.thrown →
        loadSection st dom s = SectionRender.uncaughtError ∧
        raisesUncaught (loadSection st dom s) = true ∧
        mutatesDom (loadSection st dom s) = false) := by
  refine ⟨?_, ?_, ?_⟩
  · intro st dom
    exact ⟨rfl, rfl⟩
  · intro st dom s h0 h1 h2 h3 h4 hnt
    cases hdom : dom s with
    | thrown => exact absurd hdom hnt
    | missing =>
      refine ⟨?_, ?_, fun ht => QueryResult.noConfusion ht⟩
      · simp [loadSection, h0, hdom, mutatesDom]
      · simp [loadSection, h0, hdom, raisesUncaught]
    | found =>
      refine ⟨?_, ?_, fun _ => ?_⟩
      · simp [loadSection, h0, h1, h2, h3, h4, hdom, mutatesDom]
      · simp [loadSection, h0, h1, h2, h3, h4, hdom, raisesUncaught]
      · simp [loadSection, h0, h1, h2, h3, h4, hdom]
  · intro st dom s h0 ht
    refine ⟨?_, ?_, ?_⟩
    · simp [loadSection, h0, ht]
    · simp [loadSection, h0, ht, raisesUncaught]
    · simp [loadSection, h0, ht, mutatesDom]

theorem C7_sections_amended_witness :
    loadSection { albums := [], contentCache := [] }
        (fun _ => QueryResult.found) "" = SectionRender.noop ∧
    mutatesDom
        (loadSection { albums := [], contentCache := [] }
          (fun _ => QueryResult.found) "featured") = false ∧
    loadSection { albums := [], contentCache := [] }
        (fun _ => QueryResult.found) "featured" = SectionRender.unknown ∧
    loadSection { albums := [], contentCache := [] } invalidSelectorDom "123"
        = SectionRender.uncaughtError :=
  ⟨(C7_sections_amended.1
      { albums := [], contentCache := [] } (fun _ => QueryResult.found)).1,
   (C7_sections_amended.2.1
      { albums := [], contentCache := [] } (fun _ => QueryResult.found)
      "featured" (by decide) (by decide) (by decide) (by decide) (by decide)
      (fun h => QueryResult.noConfusion h)).1,
   (C7_sections_amended.2.1
      { albums := [], contentCache := [] } (fun _ => QueryResult.found)
      "featured" (by decide) (by decide) (by decide) (by decide) (by decide)
      (fun h => QueryResult.noConfusion h)).2.2 rfl,
   (C7_sections_amended.2.2
      { albums := [], contentCache := [] } invalidSelectorDom "123"
      (by decide) rfl).1⟩

/-- C8 counterexample: a non-numeric (`NaN`) duration does not throw in
`formatTime` — JavaScript arithmetic and `Math.floor` propagate `NaN` and
the template renders it — so the result is `"NaN:NaN"`, not the `"0:00"`
the claim requires. -/
theorem C8_counterexample :
    formatTime none = "NaN:NaN" ∧ "NaN:NaN" ≠ "0:00" := by
  exact ⟨rfl, by decide⟩

/-- C8 (amended): a numeric duration in seconds is rendered as
minutes:seconds with both components integer-truncated (not rounded) and
the seconds zero-padded to two digits — `0` gives `"0:00"`, `65` gives
`"1:05"`, `599` gives `"9:59"` — but a non-numeric or absent duration
renders as `"NaN:NaN"` (the `'0:00'` catch fallback is reached only when
formatting itself throws, which `NaN` does not cause). -/
theorem C8_time_format_amended :
    (∀ q : ℚ, 0 ≤ q →
        formatTime (some q) =
          toString ⌊q / 60⌋ ++ ":" ++ padStart2 (toString (⌊q⌋ % 60))) ∧
    formatTime none = "NaN:NaN" ∧
    formatTime (some 0) = "0:00" ∧
    formatTime (some 65) = "1:05" ∧
    formatTime (some 599) = "9:59" := by
  have hgen : ∀ q : ℚ, 0 ≤ q →
      formatTime (some q) =
        toString ⌊q / 60⌋ ++ ":" ++ padStart2 (toString (⌊q⌋ % 60)) := by
    intro q hq
    have hdiv : ¬ (q / 60 < 0) := not_lt.mpr (div_nonneg hq (by norm_num))
    have hfloor2 : ⌊jsMod q 60⌋ = ⌊q⌋ % 60 := by
      rw [jsMod, if_neg hdiv]
      have hcast : (60 : ℚ) * (⌊q / 60⌋ : ℚ) = ((60 * ⌊q / 60⌋ : ℤ) : ℚ) := by
        push_cast
        ring
      rw [hcast, Int.floor_sub_int]
      have hde : ⌊q / 60⌋ = ⌊q⌋ / 60 := by
        have h1 : ((⌊q / 60⌋₊ : ℤ)) = ⌊q / 60⌋ :=
          Int.natCast_floor_eq_floor (div_nonneg hq (by norm_num))
        have h2 : ((⌊q⌋₊ : ℤ)) = ⌊q⌋ := Int.natCast_floor_eq_floor hq
        have h3 : ⌊q / (60 : ℕ)⌋₊ = ⌊q⌋₊ / 60 := Nat.floor_div_nat q 60
        rw [← h1, ← h2]
        rw [show ((60 : ℕ) : ℚ) = (60 : ℚ) by norm_num] at h3
        rw [h3]
        push_cast
        ring
      rw [hde, Int.emod_def]
    rw [formatTime, hfloor2]
  refine ⟨hgen, rfl, ?_, ?_, ?_⟩
  · rw [hgen 0 le_rfl]
    have h1 : ⌊(0 : ℚ) / 60⌋ = 0 := by norm_num
    have h2 : ⌊(0 : ℚ)⌋ = 0 := by norm_num
    rw [h1, h2]
    decide
  · rw [hgen 65 (by norm_num)]
    have h1 : ⌊(65 : ℚ) / 60⌋ = 1 := by norm_num
    have h2 : ⌊(65 : ℚ)⌋ = 65 := by norm_num
    rw [h1, h2]
    decide
  · rw [hgen 599 (by norm_num)]
    have h1 : ⌊(599 : ℚ) / 60⌋ = 9 := by norm_num
    have h2 : ⌊(599 : ℚ)⌋ = 599 := by norm_num
    rw [h1, h2]
    decide

theorem C8_time_format_amended_witness :
    formatTime (some 65) =
      toString ⌊(65 : ℚ) / 60⌋ ++ ":" ++
        padStart2 (toString (⌊(65 : ℚ)⌋ % 60)) :=
  C8_time_format_amended.1 65 (by norm_num)

/-- C9: for every prior widget state (including playing and errored),
`loadTrack url` sets the media source to `url`, resets displayed progress
to `0%` and the control affordance to its paused appearance (no `playing`
class, aria label `Play`); and the `ended` handler performs the same
visual reset while leaving the media source unchanged. -/
theorem C9_loadTrack_and_ended_reset (s : PlayerState) (url : String) :
    (loadTrack s url).src = some url ∧
    (loadTrack s url).progressWidth = "0%" ∧
    (loadTrack s url).playing = false ∧
    (loadTrack s url).ariaLabel = "Play" ∧
    (onEnded s).src = s.src ∧
    (onEnded s).progressWidth = "0%" ∧
    (onEnded s).playing = false ∧
    (onEnded s).ariaLabel = "Play" := by
  refine ⟨rfl, rfl, rfl, rfl, rfl, rfl, rfl, rfl⟩

/-- C10: when the lyrics document fails to fetch or parse (the loader
oracle returns absent), `loadLyrics` returns the literal string
`'Lyrics not available'` instead of throwing, and `showLyricsModal` still
creates the secondary overlay with that text as its content; on success
the overlay shows the parsed content. -/
theorem C10_lyrics_fallback_modal :
    loadLyrics none = "Lyrics not available".toList ∧
    showLyricsModal (loadLyrics none) =
      { className := "modal lyrics-modal"
        content := "Lyrics not available".toList } ∧
    (∀ d : ParsedDocument,
      loadLyrics (some d) = d.content ∧
      showLyricsModal (loadLyrics (some d)) =
        { className := "modal lyrics-modal", content := d.content }) := by
  exact ⟨rfl, rfl, fun d => ⟨rfl, rfl⟩⟩

end MusicSite
